import Mathlib

/-!
Shallow embedding of src/automated_portfolio_health_report.py.

The program analyzes email threads with an external language model, validates
the model output against a fixed schema, aggregates the per-thread results
into a portfolio report, and renders the report as a severity-ordered
markdown document.

External collaborators (the ollama chat call and the pydantic JSON
validator) are abstracted as function parameters: the chat call is an opaque
function from a model name and a message list to a raw text payload (the
temperature option is folded into that opaque function), and
AnalysisResult.model_validate_json is an opaque function from a raw payload
to an optional parsed value (none models a raised validation exception).
Everything downstream of those two calls is translated directly from the
source.

Python counts (len, sum of lens) are embedded as Nat. Python str is String;
Optional fields are Option. Python list.sort(key=...) is a stable sort by a
Nat key; it is embedded as List.mergeSort with the comparison
(key a le key b), which is a stable sort by that key.
-/

namespace PortfolioHealth

/-- Shape of one attention flag (Python class AttentionFlag). The pydantic
Literal constraints on flag_type and severity are validation-time checks on
untrusted input; at runtime both fields are strings, and render_markdown
defensively handles severity values outside the enumerated set, so both are
embedded as String. -/
structure AttentionFlag where
  flag_type : String
  severity : String
  title : String
  evidence : List String
  owner : Option String
deriving Repr, DecidableEq

/-- Shape of one per-thread analysis result (Python class AnalysisResult). -/
structure AnalysisResult where
  source_file : String
  project : Option String
  summary : String
  flags : List AttentionFlag
deriving Repr, DecidableEq

/-- Shape of the portfolio-level report (Python class PortfolioReport). -/
structure PortfolioReport where
  total_threads : Nat
  total_flags : Nat
  high_severity_flags : Nat
  results : List AnalysisResult
deriving Repr, DecidableEq

/-- System instruction given to the external model (Python SYSTEM_PROMPT). -/
def SYSTEM_PROMPT : String :=
  "\nYou are a strict portfolio health analyst for a Director of Engineering preparing a QBR.\nAnalyze the email thread and return ONLY JSON matching the provided schema.\nSet the field \"source_file\" to the provided source file name.\n\nIdentify only these attention flags:\n1) unresolved_action_item: questions, requests, or tasks that are still open or unanswered.\n2) emerging_risk: risks, blockers, scope issues, dependency concerns, or missing confirmations.\n\nRules:\n- If an issue is clearly resolved in the thread, do NOT flag it.\n- Use severity based on potential impact: high (schedule/contractual risk), medium (scope/effort risk), low (minor clarification).\n- Include 1-3 short evidence quotes pulled from the thread.\n- If no flags exist, return an empty list.\n- Keep summary to 1-2 sentences.\n"

/-- Message list sent to the model (Python build_messages): role paired with
content. -/
def build_messages (thread_text : String) (source_file : String) :
    List (String × String) :=
  [("system", SYSTEM_PROMPT),
   ("user", "Source file: " ++ source_file ++ "\n\n" ++ thread_text)]

/-- Thread Analyzer (Python analyze_thread). llm abstracts the ollama chat
call (model name and messages to raw payload; the temperature option is part
of the opaque llm), and validate abstracts
AnalysisResult.model_validate_json, returning none when validation raises.
On validation failure a degraded result with the sentinel summary is
returned; on success an empty source_file is backfilled with the supplied
identifier (Python: if not parsed.source_file). -/
def analyze_thread (llm : String → List (String × String) → String)
    (validate : String → Option AnalysisResult)
    (thread_text : String) (source_file : String) (model : String) :
    AnalysisResult :=
  let payload := llm model (build_messages thread_text source_file)
  match validate payload with
  | none =>
      { source_file := source_file
        project := none
        summary := "Invalid LLM output: no flags extracted."
        flags := [] }
  | some parsed =>
      if parsed.source_file = "" then
        { parsed with source_file := source_file }
      else
        parsed

/-- Report Aggregator (Python build_report). -/
def build_report (results : List AnalysisResult) : PortfolioReport :=
  { total_threads := results.length
    total_flags := (results.map (fun item => item.flags.length)).sum
    high_severity_flags :=
      (results.map (fun item =>
        (item.flags.filter (fun flag => flag.severity = "high")).length)).sum
    results := results }

/-- Severity rank used by render_markdown (Python dict severity_order with
.get default 3): high 0, medium 1, low 2, anything else 3. -/
def severity_order (severity : String) : Nat :=
  if severity = "high" then 0
  else if severity = "medium" then 1
  else if severity = "low" then 2
  else 3

/-- Sort key of one flattened (result, flag) pair: the severity rank of the
flag (Python lambda item: severity_order.get(item[1].severity, 3)). -/
def flagKey (p : AnalysisResult × AttentionFlag) : Nat :=
  severity_order p.2.severity

/-- Flattened (result, flag) pairs across report.results, in result order,
preserving each result's internal flag order (the all_flags list built by
the nested loops in render_markdown). -/
def allFlags (report : PortfolioReport) :
    List (AnalysisResult × AttentionFlag) :=
  report.results.flatMap (fun result =>
    result.flags.map (fun flag => (result, flag)))

/-- The flattened pairs after all_flags.sort(key=...). Python list.sort is a
stable sort; it is embedded as mergeSort, which is stable for the comparison
(flagKey a le flagKey b). -/
def sortedFlags (report : PortfolioReport) :
    List (AnalysisResult × AttentionFlag) :=
  (allFlags report).mergeSort (fun a b => decide (flagKey a ≤ flagKey b))

/-- Embedding of Python str.title for the heading text: the first character
of each alphabetic run is uppercased and the rest lowercased (ASCII, which
covers the severity strings that reach it). -/
def titleAux : Bool → List Char → List Char
  | _, [] => []
  | prevAlpha, c :: cs =>
    (if c.isAlpha then (if prevAlpha then c.toLower else c.toUpper) else c)
      :: titleAux c.isAlpha cs

/-- Python severity.title() on a whole string. -/
def strTitle (s : String) : String :=
  String.mk (titleAux false s.data)

/-- Lines emitted for one flattened (result, flag) pair, heading excluded:
title bullet, type, source, summary, owner when truthy (Python: if
flag.owner, so None and the empty string both omit the line), the
"Evidence:" label, and one line per evidence quote. -/
def entryLines (result : AnalysisResult) (flag : AttentionFlag) :
    List String :=
  ["- **" ++ flag.title ++ "**",
   "  - Type: " ++ flag.flag_type,
   "  - Source: " ++ result.source_file,
   "  - Summary: " ++ result.summary]
  ++ (match flag.owner with
      | none => []
      | some o => if o = "" then [] else ["  - Owner: " ++ o])
  ++ ["  - Evidence:"]
  ++ flag.evidence.map (fun evidence => "    - " ++ evidence)

/-- The main rendering loop of render_markdown: cur is the Python
current_severity (initially None); a blank line, a section heading and a
second blank line are emitted whenever the current flag's severity differs
from cur, followed by the entry lines of the flag. -/
def renderFlagLines (cur : Option String) :
    List (AnalysisResult × AttentionFlag) → List String
  | [] => []
  | (result, flag) :: rest =>
    (if cur = some flag.severity then []
     else ["", "### " ++ strTitle flag.severity ++ " Priority", ""])
    ++ entryLines result flag
    ++ renderFlagLines (some flag.severity) rest

/-- Header block of the document: the title, the Summary section with the
three stored counts, and the Attention Flags section heading. -/
def headerBlock (report : PortfolioReport) : List String :=
  ["# Portfolio Health Report",
   "",
   "## Summary",
   "- Threads analyzed: " ++ toString report.total_threads,
   "- Total attention flags: " ++ toString report.total_flags,
   "- High severity flags: " ++ toString report.high_severity_flags,
   "",
   "## Attention Flags"]

/-- The list of lines render_markdown joins with newlines: the header block,
then either the single no-flags line (when the stored total_flags field is
zero) or the rendered sorted flags, and a trailing empty line. -/
def render_lines (report : PortfolioReport) : List String :=
  if report.total_flags = 0 then
    headerBlock report ++ ["- No attention flags detected.", ""]
  else
    headerBlock report ++ renderFlagLines none (sortedFlags report) ++ [""]

/-- Document Renderer (Python render_markdown): the lines joined with
newline. -/
def render_markdown (report : PortfolioReport) : String :=
  String.intercalate "\n" (render_lines report)

/-! Helper lemmas about stable sorting by a natural-number key. -/

/-- Comparison function induced by a natural-number sort key, as used by the
embedding of list.sort(key=...). -/
def keyLe {α : Type} (key : α → Nat) : α → α → Bool :=
  fun a b => decide (key a ≤ key b)

theorem keyLe_trans {α : Type} (key : α → Nat) :
    ∀ a b c, keyLe key a b = true → keyLe key b c = true →
      keyLe key a c = true := by
  intro a b c hab hbc
  simp only [keyLe, decide_eq_true_eq] at *
  omega

theorem keyLe_total {α : Type} (key : α → Nat) :
    ∀ a b, (keyLe key a b || keyLe key b a) = true := by
  intro a b
  simp only [keyLe, Bool.or_eq_true, decide_eq_true_eq]
  omega

/-- Stability of mergeSort with a key-induced comparison: filtering by any
predicate that is key-constant commutes with sorting. -/
theorem filter_mergeSort_of_key_const {α : Type} (key : α → Nat)
    (p : α → Bool) (l : List α)
    (hp : ∀ a b, p a = true → p b = true → key a = key b) :
    (l.mergeSort (keyLe key)).filter p = l.filter p := by
  have hperm : ((l.mergeSort (keyLe key)).filter p).Perm (l.filter p) :=
    (List.mergeSort_perm l (keyLe key)).filter p
  have hpw : (l.filter p).Pairwise (fun a b => keyLe key a b = true) := by
    apply List.pairwise_of_forall_mem_list
    intro a ha b hb
    have hpa := List.of_mem_filter ha
    have hpb := List.of_mem_filter hb
    simp only [keyLe, decide_eq_true_eq]
    exact Nat.le_of_eq (hp a b hpa hpb)
  have hsub : (l.filter p).Sublist (l.mergeSort (keyLe key)) :=
    List.sublist_mergeSort (keyLe_trans key) (keyLe_total key) hpw
      (List.filter_sublist l)
  have hself : (l.filter p).filter p = l.filter p :=
    List.filter_eq_self.mpr (fun a ha => List.of_mem_filter ha)
  have hsub2 : (l.filter p).Sublist ((l.mergeSort (keyLe key)).filter p) := by
    have := hsub.filter p
    rwa [hself] at this
  exact (hsub2.eq_of_length (hperm.length_eq.symm)).symm

/-- Any list that is sorted by a key bounded by 3 is the concatenation of
its key-0, key-1, key-2 and key-3 elements, in that order. -/
theorem sorted_eq_filters {α : Type} (key : α → Nat) :
    ∀ m : List α, m.Pairwise (fun a b => key a ≤ key b) →
      (∀ a ∈ m, key a ≤ 3) →
      m = (m.filter fun a => decide (key a = 0))
          ++ (m.filter fun a => decide (key a = 1))
          ++ (m.filter fun a => decide (key a = 2))
          ++ (m.filter fun a => decide (key a = 3)) := by
  intro m
  induction m with
  | nil => simp
  | cons x rest ih =>
    intro hpw hb
    rcases List.pairwise_cons.mp hpw with ⟨hx, hrest⟩
    have ihr := ih hrest (fun a ha => hb a (List.mem_cons_of_mem x ha))
    have hx3 : key x ≤ 3 := hb x (List.mem_cons_self x rest)
    have hnil : ∀ j : Nat, j < key x →
        (rest.filter fun a => decide (key a = j)) = [] := by
      intro j hj
      apply List.filter_eq_nil_iff.mpr
      intro a ha
      have := hx a ha
      simp only [decide_eq_true_eq]
      omega
    have hf : ∀ i : Nat, ((x :: rest).filter fun a => decide (key a = i)) =
        if key x = i then x :: (rest.filter fun a => decide (key a = i))
        else rest.filter fun a => decide (key a = i) := by
      intro i
      by_cases hxi : key x = i
      · simp [List.filter_cons, hxi]
      · simp [List.filter_cons, hxi]
    rw [hf 0, hf 1, hf 2, hf 3]
    have hcase : key x = 0 ∨ key x = 1 ∨ key x = 2 ∨ key x = 3 := by omega
    rcases hcase with h | h | h | h
    · rw [if_pos h, if_neg (show key x ≠ 1 by omega),
        if_neg (show key x ≠ 2 by omega), if_neg (show key x ≠ 3 by omega)]
      simp only [List.cons_append]
      exact congrArg (x :: ·) ihr
    · rw [if_neg (show key x ≠ 0 by omega), if_pos h,
        if_neg (show key x ≠ 2 by omega), if_neg (show key x ≠ 3 by omega),
        hnil 0 (by omega)]
      simp only [List.nil_append, List.cons_append]
      refine congrArg (x :: ·) ?_
      conv_lhs => rw [ihr]
      rw [hnil 0 (by omega)]
      simp
    · rw [if_neg (show key x ≠ 0 by omega), if_neg (show key x ≠ 1 by omega),
        if_pos h, if_neg (show key x ≠ 3 by omega),
        hnil 0 (by omega), hnil 1 (by omega)]
      simp only [List.nil_append, List.cons_append]
      refine congrArg (x :: ·) ?_
      conv_lhs => rw [ihr]
      rw [hnil 0 (by omega), hnil 1 (by omega)]
      simp
    · rw [if_neg (show key x ≠ 0 by omega), if_neg (show key x ≠ 1 by omega),
        if_neg (show key x ≠ 2 by omega), if_pos h,
        hnil 0 (by omega), hnil 1 (by omega), hnil 2 (by omega)]
      simp only [List.nil_append, List.cons_append]
      refine congrArg (x :: ·) ?_
      conv_lhs => rw [ihr]
      rw [hnil 0 (by omega), hnil 1 (by omega), hnil 2 (by omega)]
      simp

theorem severity_order_le_three (s : String) : severity_order s ≤ 3 := by
  unfold severity_order
  split
  · omega
  · split
    · omega
    · split <;> omega

theorem sortedFlags_def (report : PortfolioReport) :
    sortedFlags report = (allFlags report).mergeSort (keyLe flagKey) := rfl

/-- Characterization of the sorted flag list as the concatenation of the
severity-rank classes of the flattened list, each in original order. -/
theorem sortedFlags_eq_filters (report : PortfolioReport) :
    sortedFlags report =
      ((allFlags report).filter fun p => decide (flagKey p = 0))
      ++ ((allFlags report).filter fun p => decide (flagKey p = 1))
      ++ ((allFlags report).filter fun p => decide (flagKey p = 2))
      ++ ((allFlags report).filter fun p => decide (flagKey p = 3)) := by
  have hpw : (sortedFlags report).Pairwise
      (fun a b => flagKey a ≤ flagKey b) := by
    have h := @List.sorted_mergeSort _ (keyLe flagKey)
      (keyLe_trans flagKey) (keyLe_total flagKey) (allFlags report)
    rw [← sortedFlags_def] at h
    refine h.imp ?_
    intro a b hab
    simpa [keyLe, decide_eq_true_eq] using hab
  have hchar := sorted_eq_filters flagKey (sortedFlags report) hpw
    (fun a _ => severity_order_le_three a.2.severity)
  have hf : ∀ i : Nat,
      ((sortedFlags report).filter fun p => decide (flagKey p = i)) =
        ((allFlags report).filter fun p => decide (flagKey p = i)) := by
    intro i
    rw [sortedFlags_def]
    apply filter_mergeSort_of_key_const
    intro a b ha hb
    simp only [decide_eq_true_eq] at ha hb
    rw [ha, hb]
  rw [hchar, hf 0, hf 1, hf 2, hf 3]

theorem sum_flag_counts_eq (results : List AnalysisResult) :
    (results.map (fun item => item.flags.length)).sum =
      (results.flatMap (fun r => r.flags)).length := by
  induction results with
  | nil => rfl
  | cons r rs ih => simp [List.flatMap_cons, ih]

theorem sum_high_counts_eq (results : List AnalysisResult) :
    (results.map (fun item =>
      (item.flags.filter (fun flag => flag.severity = "high")).length)).sum =
      ((results.flatMap (fun r => r.flags)).filter
        (fun flag => flag.severity = "high")).length := by
  induction results with
  | nil => rfl
  | cons r rs ih => simp [List.flatMap_cons, List.filter_append, ih]

/-! Claim theorems. -/

/-- Claim C1: for every thread text, source file identifier and model whose
raw output payload fails to parse/validate as an AnalysisResult,
analyze_thread returns (does not raise) a degraded AnalysisResult with
source_file equal to the supplied identifier, project none, the exact
sentinel summary, and an empty flags list. The validation failure is the
hypothesis that the abstracted validator returns none on the payload the
abstracted model call produced. -/
theorem analyze_thread_degraded_on_invalid_output
    (llm : String → List (String × String) → String)
    (validate : String → Option AnalysisResult)
    (thread_text source_file model : String)
    (h : validate (llm model (build_messages thread_text source_file)) = none) :
    analyze_thread llm validate thread_text source_file model =
      { source_file := source_file
        project := none
        summary := "Invalid LLM output: no flags extracted."
        flags := [] } := by
  simp [analyze_thread, h]

/-- Witness for claim C1 at a concrete malformed payload. -/
theorem analyze_thread_degraded_on_invalid_output_witness :
    analyze_thread (fun _ _ => "not a schema instance") (fun _ => none)
        "thread body" "email1.txt" "some-model" =
      { source_file := "email1.txt"
        project := none
        summary := "Invalid LLM output: no flags extracted."
        flags := [] } :=
  analyze_thread_degraded_on_invalid_output _ _ _ _ _ rfl

/-- Claim C2: build_report returns a PortfolioReport whose total_threads is
the length of the input, whose total_flags is the number of flags across all
results (stated as the length of the flattened flag list), and whose
high_severity_flags is the number of flags with severity high across all
results; on empty input all three counts are zero and no error is raised
(build_report is total). -/
theorem build_report_counts (results : List AnalysisResult) :
    (build_report results).total_threads = results.length ∧
    (build_report results).total_flags =
      (results.flatMap (fun r => r.flags)).length ∧
    (build_report results).high_severity_flags =
      ((results.flatMap (fun r => r.flags)).filter
        (fun flag => flag.severity = "high")).length ∧
    (build_report (List.nil (α := AnalysisResult))).total_threads = 0 ∧
    (build_report (List.nil (α := AnalysisResult))).total_flags = 0 ∧
    (build_report (List.nil (α := AnalysisResult))).high_severity_flags = 0 :=
  ⟨rfl, sum_flag_counts_eq results, sum_high_counts_eq results, rfl, rfl, rfl⟩

/-- Claim C4: the sort performed by render_markdown is stable: for every
report and every severity value, the sorted pair list restricted to that
severity is exactly the flattened-by-result, by-result-internal-order pair
list restricted to that severity, so two flags of equal severity keep their
relative flattened order in the rendered document (render_markdown walks
sortedFlags front to back). -/
theorem render_markdown_sort_stable (report : PortfolioReport) (s : String) :
    (sortedFlags report).filter (fun p => decide (p.2.severity = s)) =
      (allFlags report).filter (fun p => decide (p.2.severity = s)) := by
  rw [sortedFlags_def]
  apply filter_mergeSort_of_key_const
  intro a b ha hb
  simp only [decide_eq_true_eq] at ha hb
  simp [flagKey, ha, hb]

/-- Claim C7: a syntactically valid payload whose source_file is empty is
rewritten to carry the caller-supplied identifier, and consequently every
result analyze_thread returns for a non-empty supplied identifier has a
non-empty source_file. -/
theorem analyze_thread_source_file_backfill
    (llm : String → List (String × String) → String)
    (validate : String → Option AnalysisResult)
    (thread_text source_file model : String) :
    (∀ parsed : AnalysisResult,
       validate (llm model (build_messages thread_text source_file)) =
         some parsed →
       parsed.source_file = "" →
       analyze_thread llm validate thread_text source_file model =
         { parsed with source_file := source_file }) ∧
    (source_file ≠ "" →
       (analyze_thread llm validate thread_text source_file
         model).source_file ≠ "") := by
  constructor
  · intro parsed hv he
    simp [analyze_thread, hv, he]
  · intro hs
    simp only [analyze_thread]
    cases hv : validate (llm model (build_messages thread_text source_file)) with
    | none => simpa using hs
    | some parsed =>
      by_cases he : parsed.source_file = ""
      · simpa [he] using hs
      · simp [he]

/-- Witness for claim C7 at a concrete payload with an empty source_file. -/
theorem analyze_thread_source_file_backfill_witness :
    analyze_thread (fun _ _ => "payload")
        (fun _ => some ⟨"", none, "ok summary", []⟩)
        "thread body" "email1.txt" "some-model" =
      { source_file := "email1.txt"
        project := none
        summary := "ok summary"
        flags := [] } ∧
    (analyze_thread (fun _ _ => "payload")
        (fun _ => some ⟨"", none, "ok summary", []⟩)
        "thread body" "email1.txt" "some-model").source_file ≠ "" := by
  constructor
  · exact (analyze_thread_source_file_backfill
      (fun _ _ => "payload") (fun _ => some ⟨"", none, "ok summary", []⟩)
      "thread body" "email1.txt" "some-model").1
      ⟨"", none, "ok summary", []⟩ rfl rfl
  · exact (analyze_thread_source_file_backfill
      (fun _ _ => "payload") (fun _ => some ⟨"", none, "ok summary", []⟩)
      "thread body" "email1.txt" "some-model").2 (by decide)

/-- Claim C8: render_markdown is a deterministic pure function of its
report argument: it is a Lean function, and calls on structurally identical
reports return identical text. -/
theorem render_markdown_deterministic (r1 r2 : PortfolioReport)
    (h : r1 = r2) : render_markdown r1 = render_markdown r2 :=
  congrArg render_markdown h

/-- Witness for claim C8 at a concrete report. -/
theorem render_markdown_deterministic_witness :
    render_markdown (build_report []) = render_markdown (build_report []) :=
  render_markdown_deterministic (build_report []) (build_report []) rfl

theorem noFlagsLine_not_mem_headerBlock (report : PortfolioReport) :
    "- No attention flags detected." ∉ headerBlock report := by
  simp [headerBlock, String.ext_iff, String.data_append]

theorem heading_not_mem_headerBlock (report : PortfolioReport) (s : String) :
    ("### " ++ s) ∉ headerBlock report := by
  simp [headerBlock, String.ext_iff, String.data_append]

theorem noFlagsLine_not_mem_renderFlagLines :
    ∀ (cur : Option String) (pairs : List (AnalysisResult × AttentionFlag)),
      "- No attention flags detected." ∉ renderFlagLines cur pairs := by
  intro cur pairs
  induction pairs generalizing cur with
  | nil => simp [renderFlagLines]
  | cons hd tl ih =>
    obtain ⟨r0, f0⟩ := hd
    intro h
    simp only [renderFlagLines, List.mem_append] at h
    rcases h with (h | h) | h
    · by_cases hc : cur = some f0.severity
      · rw [if_pos hc] at h
        simp at h
      · rw [if_neg hc] at h
        simp [String.ext_iff, String.data_append] at h
    · rcases ho : f0.owner with _ | o
      · simp [entryLines, ho, String.ext_iff, String.data_append] at h
      · rcases eq_or_ne o "" with ho2 | ho2 <;>
          simp [entryLines, ho, ho2, String.ext_iff, String.data_append] at h
    · exact ih (some f0.severity) h

/-- Claim C5: when total_flags is zero, render_markdown emits the header
block followed by the single no-flags line and stops: the document lines are
exactly the header block plus that literal line (and the trailing blank),
the literal line occurs, no severity-section heading occurs, and the
rendered text is the join of those lines. -/
theorem render_markdown_no_flags_line (report : PortfolioReport)
    (h : report.total_flags = 0) :
    render_lines report =
      headerBlock report ++ ["- No attention flags detected.", ""] ∧
    "- No attention flags detected." ∈ render_lines report ∧
    (∀ s : String, ("### " ++ s) ∉ render_lines report) ∧
    render_markdown report = String.intercalate "\n"
      (headerBlock report ++ ["- No attention flags detected.", ""]) := by
  have he : render_lines report =
      headerBlock report ++ ["- No attention flags detected.", ""] := by
    simp [render_lines, h]
  refine ⟨he, ?_, ?_, ?_⟩
  · rw [he]
    simp
  · intro s
    rw [he]
    intro hmem
    rcases List.mem_append.mp hmem with hm | hm
    · exact heading_not_mem_headerBlock report s hm
    · simp [String.ext_iff, String.data_append] at hm
  · rw [render_markdown, he]

/-- Witness for claim C5 at the empty report. -/
theorem render_markdown_no_flags_line_witness :
    render_lines (build_report []) =
      headerBlock (build_report []) ++ ["- No attention flags detected.", ""] :=
  (render_markdown_no_flags_line (build_report []) rfl).1

/-- Claim C10: render_markdown decides the empty-report branch solely from
the stored total_flags field: whenever that field is zero the document is
the header block plus the no-flags line with no per-flag entries, whatever
results holds; whenever it is non-zero the document is the header block
plus the rendered sorted flags and the no-flags line is absent, even when
every flags list is empty. -/
theorem render_markdown_branches_on_total_flags_field
    (report : PortfolioReport) :
    (report.total_flags = 0 →
       render_lines report =
         headerBlock report ++ ["- No attention flags detected.", ""]) ∧
    (report.total_flags ≠ 0 →
       render_lines report =
         headerBlock report
           ++ renderFlagLines none (sortedFlags report) ++ [""] ∧
       "- No attention flags detected." ∉ render_lines report) := by
  constructor
  · intro h
    simp [render_lines, h]
  · intro h
    have he : render_lines report =
        headerBlock report
          ++ renderFlagLines none (sortedFlags report) ++ [""] := by
      simp [render_lines, h]
    refine ⟨he, ?_⟩
    rw [he]
    intro hmem
    rcases List.mem_append.mp hmem with hm | hm
    · rcases List.mem_append.mp hm with hm2 | hm2
      · exact noFlagsLine_not_mem_headerBlock report hm2
      · exact noFlagsLine_not_mem_renderFlagLines none (sortedFlags report) hm2
    · simp at hm

/-- Witness for claim C10: a report whose stored total_flags is zero while a
result carries a flag still takes the no-flags branch, and a report whose
stored total_flags is non-zero while every flags list is empty does not
contain the no-flags line. -/
theorem render_markdown_branches_on_total_flags_field_witness :
    render_lines (PortfolioReport.mk 1 0 0
        [AnalysisResult.mk "email1.txt" none "s"
          [AttentionFlag.mk "emerging_risk" "high" "T" [] none]]) =
      headerBlock (PortfolioReport.mk 1 0 0
        [AnalysisResult.mk "email1.txt" none "s"
          [AttentionFlag.mk "emerging_risk" "high" "T" [] none]])
        ++ ["- No attention flags detected.", ""] ∧
    "- No attention flags detected." ∉
      render_lines (PortfolioReport.mk 0 5 0 []) := by
  constructor
  · exact (render_markdown_branches_on_total_flags_field _).1 rfl
  · exact ((render_markdown_branches_on_total_flags_field _).2 (by decide)).2

theorem entryLines_sublist_renderFlagLines
    (result : AnalysisResult) (flag : AttentionFlag) :
    ∀ (cur : Option String) (pairs : List (AnalysisResult × AttentionFlag)),
      (result, flag) ∈ pairs →
      (entryLines result flag).Sublist (renderFlagLines cur pairs) := by
  intro cur pairs
  induction pairs generalizing cur with
  | nil => intro h; cases h
  | cons hd tl ih =>
    obtain ⟨r0, f0⟩ := hd
    intro hmem
    rcases List.mem_cons.mp hmem with he | ht
    · rw [Prod.mk.injEq] at he
      obtain ⟨h1, h2⟩ := he
      subst h1
      subst h2
      simp only [renderFlagLines, List.append_assoc]
      exact (List.sublist_append_left _ _).trans (List.sublist_append_right _ _)
    · have hs := ih (some f0.severity) ht
      simp only [renderFlagLines, List.append_assoc]
      exact hs.trans ((List.sublist_append_right _ _).trans
        (List.sublist_append_right _ _))

/-- Claim C6: the lines emitted for one rendered flag contain its title
bullet, its type line, the source thread identifier line, the owning
result's summary line, and the Evidence label; each evidence quote gets its
own line; the owner line appears when the owner is present (and truthy:
Python also suppresses it for an empty-string owner) and never when the
owner is absent; with an empty evidence list the Evidence label is still
emitted with nothing under it (it ends the entry); and the entry lines
occur, in order, inside the rendered output of any pair list containing the
flag. -/
theorem render_markdown_flag_entry (result : AnalysisResult)
    (flag : AttentionFlag) :
    ("- **" ++ flag.title ++ "**") ∈ entryLines result flag ∧
    ("  - Type: " ++ flag.flag_type) ∈ entryLines result flag ∧
    ("  - Source: " ++ result.source_file) ∈ entryLines result flag ∧
    ("  - Summary: " ++ result.summary) ∈ entryLines result flag ∧
    "  - Evidence:" ∈ entryLines result flag ∧
    (∀ e ∈ flag.evidence, ("    - " ++ e) ∈ entryLines result flag) ∧
    (∀ o : String, flag.owner = some o → o ≠ "" →
       ("  - Owner: " ++ o) ∈ entryLines result flag) ∧
    (flag.owner = none →
       ∀ o : String, ("  - Owner: " ++ o) ∉ entryLines result flag) ∧
    (flag.evidence = [] →
       entryLines result flag =
         ["- **" ++ flag.title ++ "**",
          "  - Type: " ++ flag.flag_type,
          "  - Source: " ++ result.source_file,
          "  - Summary: " ++ result.summary]
         ++ (match flag.owner with
             | none => []
             | some o => if o = "" then [] else ["  - Owner: " ++ o])
         ++ ["  - Evidence:"]) ∧
    (∀ (cur : Option String) (pairs : List (AnalysisResult × AttentionFlag)),
       (result, flag) ∈ pairs →
       (entryLines result flag).Sublist (renderFlagLines cur pairs)) := by
  refine ⟨?_, ?_, ?_, ?_, ?_, ?_, ?_, ?_, ?_,
    entryLines_sublist_renderFlagLines result flag⟩
  · simp [entryLines]
  · simp [entryLines]
  · simp [entryLines]
  · simp [entryLines]
  · simp [entryLines]
  · intro e he
    simp only [entryLines, List.mem_append]
    right
    simp only [List.mem_append, List.mem_map, List.mem_singleton]
    exact ⟨e, he, rfl⟩
  · intro o ho hne
    simp [entryLines, ho, hne]
  · intro ho o
    simp [entryLines, ho, String.ext_iff, String.data_append]
  · intro hev
    simp [entryLines, hev]

/-- Witness for claim C6 at a concrete result and flag (one evidence quote,
no owner). -/
theorem render_markdown_flag_entry_witness :
    ("- **" ++ "T" ++ "**") ∈
      entryLines (AnalysisResult.mk "email1.txt" none "Sum." [])
        (AttentionFlag.mk "emerging_risk" "high" "T" ["q"] none) ∧
    ("    - " ++ "q") ∈
      entryLines (AnalysisResult.mk "email1.txt" none "Sum." [])
        (AttentionFlag.mk "emerging_risk" "high" "T" ["q"] none) ∧
    ("  - Owner: " ++ "bob") ∉
      entryLines (AnalysisResult.mk "email1.txt" none "Sum." [])
        (AttentionFlag.mk "emerging_risk" "high" "T" ["q"] none) := by
  refine ⟨(render_markdown_flag_entry _ _).1, ?_, ?_⟩
  · exact (render_markdown_flag_entry
      (AnalysisResult.mk "email1.txt" none "Sum." [])
      (AttentionFlag.mk "emerging_risk" "high" "T" ["q"] none)).2.2.2.2.2.1
      "q" (by simp)
  · exact (render_markdown_flag_entry
      (AnalysisResult.mk "email1.txt" none "Sum." [])
      (AttentionFlag.mk "emerging_risk" "high" "T" ["q"] none)).2.2.2.2.2.2.2.1
      rfl "bob"

/-- Claim C9: build_report is pure (a Lean function with no effects) and
preserves input order: the results field of the returned report is exactly
the input sequence, element for element. -/
theorem build_report_preserves_results (results : List AnalysisResult) :
    (build_report results).results = results ∧
    ∀ i : Nat, ((build_report results).results)[i]? = results[i]? :=
  ⟨rfl, fun _ => rfl⟩

theorem build_report_total_flags_eq (results : List AnalysisResult) :
    (build_report results).total_flags =
      (allFlags (build_report results)).length := by
  simp only [build_report, allFlags]
  induction results with
  | nil => rfl
  | cons r rs ih => simp_all [List.flatMap_cons]

/-- Claim C3: for a report built from results whose three flattened flags
have severities low, high, medium in flattened input order, render_markdown
emits the flags in order high, medium, low, each under its own fresh
section heading with heading text exactly High Priority, Medium Priority
and Low Priority; a heading is emitted before each of the three entries
because each severity differs from the previously emitted one. -/
theorem render_markdown_orders_low_high_medium (results : List AnalysisResult)
    (h : (allFlags (build_report results)).map (fun p => p.2.severity) =
      ["low", "high", "medium"]) :
    ∃ pl ph pm : AnalysisResult × AttentionFlag,
      allFlags (build_report results) = [pl, ph, pm] ∧
      pl.2.severity = "low" ∧ ph.2.severity = "high" ∧
      pm.2.severity = "medium" ∧
      sortedFlags (build_report results) = [ph, pm, pl] ∧
      render_lines (build_report results) =
        headerBlock (build_report results)
        ++ (["", "### High Priority", ""] ++ entryLines ph.1 ph.2
            ++ ["", "### Medium Priority", ""] ++ entryLines pm.1 pm.2
            ++ ["", "### Low Priority", ""] ++ entryLines pl.1 pl.2)
        ++ [""] := by
  have hlen : (allFlags (build_report results)).length = 3 := by
    have hl := congrArg List.length h
    simpa using hl
  obtain ⟨a, b, c, habc⟩ := List.length_eq_three.mp hlen
  obtain ⟨a1, a2⟩ := a
  obtain ⟨b1, b2⟩ := b
  obtain ⟨c1, c2⟩ := c
  rw [habc] at h
  simp only [List.map_cons, List.map_nil, List.cons.injEq, and_true] at h
  obtain ⟨ha, hb, hc⟩ := h
  have hka : flagKey (a1, a2) = 2 := by simp [flagKey, ha, severity_order]
  have hkb : flagKey (b1, b2) = 0 := by simp [flagKey, hb, severity_order]
  have hkc : flagKey (c1, c2) = 1 := by simp [flagKey, hc, severity_order]
  have hsorted : sortedFlags (build_report results) =
      [(b1, b2), (c1, c2), (a1, a2)] := by
    rw [sortedFlags_eq_filters, habc]
    simp [List.filter_cons, hka, hkb, hkc]
  have htot : (build_report results).total_flags ≠ 0 := by
    rw [build_report_total_flags_eq, hlen]
    omega
  have hrender : render_lines (build_report results) =
      headerBlock (build_report results)
        ++ renderFlagLines none (sortedFlags (build_report results))
        ++ [""] := by
    simp [render_lines, htot]
  refine ⟨(a1, a2), (b1, b2), (c1, c2), habc, ha, hb, hc, hsorted, ?_⟩
  rw [hrender, hsorted]
  simp only [renderFlagLines, hb, hc, ha]
  norm_num
  rfl

/-- Witness for claim C3 at one thread carrying three flags with severities
low, high, medium. -/
theorem render_markdown_orders_low_high_medium_witness :
    (sortedFlags (build_report
        [AnalysisResult.mk "email1.txt" none "Sum."
          [AttentionFlag.mk "emerging_risk" "low" "A" [] none,
           AttentionFlag.mk "emerging_risk" "high" "B" [] none,
           AttentionFlag.mk "emerging_risk" "medium" "C" [] none]])).map
      (fun p => p.2.severity) = ["high", "medium", "low"] := by
  obtain ⟨pl, ph, pm, _, hl, hh, hm, hs, _⟩ :=
    render_markdown_orders_low_high_medium
      [AnalysisResult.mk "email1.txt" none "Sum."
        [AttentionFlag.mk "emerging_risk" "low" "A" [] none,
         AttentionFlag.mk "emerging_risk" "high" "B" [] none,
         AttentionFlag.mk "emerging_risk" "medium" "C" [] none]] (by rfl)
  rw [hs]
  simp [hh, hm, hl]

end PortfolioHealth
